import Mathlib

/-!
Verification development for the agent-framework repository.

The execution engine (`BaseAgent` in src/unnamed/part_000), the event bus
(`EventBus` in src/unnamed/part_002) and the fleet manager (`AgentManager`
in src/manager.ts) are shallowly embedded below.  Stateful methods become
pure state-transition functions returning the new state together with a
trace of hook invocations and emitted events; wall-clock instants are
explicit `Nat` parameters (milliseconds); JavaScript number division in the
metrics average is modelled over `ℚ`, which matches the source arithmetic
exactly up to floating-point rounding.
-/

namespace AgentFramework

/-- `AgentStatus` from src/types.ts. -/
inductive AgentStatus where
  | idle
  | running
  | paused
  | stopped
  | error
deriving DecidableEq, Repr

/-- `AgentPriority` from src/types.ts. -/
inductive AgentPriority where
  | low
  | normal
  | high
  | critical
deriving DecidableEq, Repr

/-- `Required<AgentConfig>` from src/types.ts: the engine constructor fills
every optional field, so the embedded config is total. -/
structure AgentConfig where
  id : String
  name : String
  description : String
  priority : AgentPriority
  maxRetries : Nat
  retryDelayMs : Nat
  timeoutMs : Nat
  enabled : Bool
deriving DecidableEq, Repr

/-- `AgentMetrics` from src/types.ts.  `lastExecutionAt` is a millisecond
timestamp; `averageExecutionTimeMs` is kept in `ℚ` because the source
updates it with JavaScript number division. -/
structure AgentMetrics where
  totalExecutions : Nat
  successfulExecutions : Nat
  failedExecutions : Nat
  averageExecutionTimeMs : ℚ
  lastExecutionAt : Option Nat
  uptime : Nat
deriving DecidableEq, Repr

/-- The metrics object built by the `BaseAgent` constructor
(src/unnamed/part_000, lines 39-45). -/
def initialMetrics : AgentMetrics :=
  { totalExecutions := 0
    successfulExecutions := 0
    failedExecutions := 0
    averageExecutionTimeMs := 0
    lastExecutionAt := none
    uptime := 0 }

/-- `ExecutionResult` from src/types.ts.  Errors are carried as their
message strings. -/
structure ExecutionResult (α : Type) where
  success : Bool
  data : Option α
  error : Option String
  executionTimeMs : Nat
  timestamp : Nat
deriving DecidableEq, Repr

/-- `BaseAgent.updateMetrics` (src/unnamed/part_000, lines 169-184).
`startTime` is the engine's `this.startTime` and `now` the value of
`Date.now()` at the update. -/
def updateMetrics (startTime : Option Nat) (now : Nat) (m : AgentMetrics)
    (r : ExecutionResult α) : AgentMetrics :=
  let totalExecutions := m.totalExecutions + 1
  let successfulExecutions :=
    if r.success then m.successfulExecutions + 1 else m.successfulExecutions
  let failedExecutions :=
    if r.success then m.failedExecutions else m.failedExecutions + 1
  let totalTime : ℚ := m.averageExecutionTimeMs * ((totalExecutions : ℚ) - 1)
  let averageExecutionTimeMs : ℚ :=
    (totalTime + (r.executionTimeMs : ℚ)) / (totalExecutions : ℚ)
  { totalExecutions := totalExecutions
    successfulExecutions := successfulExecutions
    failedExecutions := failedExecutions
    averageExecutionTimeMs := averageExecutionTimeMs
    lastExecutionAt := some r.timestamp
    uptime := match startTime with
      | some t0 => now - t0
      | none => m.uptime }

/-- The count invariant `total = success + failed` of the metrics record. -/
def MetricsInvariant (m : AgentMetrics) : Prop :=
  m.totalExecutions = m.successfulExecutions + m.failedExecutions

instance (m : AgentMetrics) : Decidable (MetricsInvariant m) := by
  unfold MetricsInvariant; infer_instance

lemma updateMetrics_invariant (startTime : Option Nat) (now : Nat)
    (m : AgentMetrics) (r : ExecutionResult α) (h : MetricsInvariant m) :
    MetricsInvariant (updateMetrics startTime now m r) := by
  unfold MetricsInvariant updateMetrics at *
  by_cases hs : r.success = true <;> simp [hs] <;> omega

lemma updateMetrics_total (startTime : Option Nat) (now : Nat)
    (m : AgentMetrics) (r : ExecutionResult α) :
    (updateMetrics startTime now m r).totalExecutions = m.totalExecutions + 1 := rfl

/-- The running total `average * count` advances by exactly the new
duration on every update. -/
lemma updateMetrics_sumTime (startTime : Option Nat) (now : Nat)
    (m : AgentMetrics) (r : ExecutionResult α) :
    (updateMetrics startTime now m r).averageExecutionTimeMs *
        ((updateMetrics startTime now m r).totalExecutions : ℚ) =
      m.averageExecutionTimeMs * (m.totalExecutions : ℚ) + (r.executionTimeMs : ℚ) := by
  unfold updateMetrics
  have hne : ((m.totalExecutions + 1 : Nat) : ℚ) ≠ 0 := by
    exact_mod_cast Nat.succ_ne_zero m.totalExecutions
  field_simp

/-! ## Supervised retry loop (`BaseAgent.executeWithRetry`) -/

/-- Behaviour of one invocation of the abstract unit-of-work
`this.execute(this.context)`: it settles successfully after `d` ms,
rejects after `d` ms with message `e`, or never settles. -/
inductive WorkResult (α : Type) where
  | ok (d : Nat) (v : α)
  | err (d : Nat) (e : String)
  | pending
deriving DecidableEq, Repr

/-- `BaseAgent.withTimeout` (src/unnamed/part_000, lines 156-163):
`Promise.race` between the work and a timer of `timeoutMs`.  Returns the
elapsed time of the attempt together with its outcome.  The work wins the
race exactly when it settles strictly before the timer; a timer win is the
synthetic failure "Execution timeout".  (Settling at exactly `timeoutMs`
is scheduler-dependent in the source; the model resolves the tie to the
timer, and no claim depends on the tie.) -/
def withTimeout (timeoutMs : Nat) : WorkResult α → Nat × Except String α
  | .ok d v => if d < timeoutMs then (d, .ok v) else (timeoutMs, .error "Execution timeout")
  | .err d e => if d < timeoutMs then (d, .error e) else (timeoutMs, .error "Execution timeout")
  | .pending => (timeoutMs, .error "Execution timeout")

/-- Everything observable about one run of the retry loop: the returned
`ExecutionResult`, the per-attempt `(elapsed, outcome)` pairs in order, the
backoff delays actually waited in order, and the final value of
`context.lastError`. -/
structure RetryOutcome (α : Type) where
  result : ExecutionResult α
  attempts : List (Nat × Except String α)
  delays : List Nat
  finalLastError : Option String
deriving Repr

/-- The body of the `for` loop of `BaseAgent.executeWithRetry`
(src/unnamed/part_000, lines 120-154), recursing on the number of
`remaining` attempts (`remaining = maxRetries - attempt`).  `work i` is the
behaviour of `this.execute` on attempt `i`; `elapsed` accumulates
`Date.now() - startTime`; `lastErr` is the current `context.lastError`.
When `remaining = 0` the loop exits and the terminal-failure tail of the
method runs (`lastErr` is `none` only in the vacuous `maxRetries = 0`
case, mirroring the source's non-null assertion on `lastError!`). -/
def retryAux (timeoutMs retryDelayMs : Nat) (work : Nat → WorkResult α)
    (startNow : Nat) : Nat → Nat → Nat → Option String → RetryOutcome α
  | _attempt, 0, elapsed, lastErr =>
    { result := { success := false, data := none, error := lastErr,
                  executionTimeMs := elapsed, timestamp := startNow + elapsed }
      attempts := []
      delays := []
      finalLastError := lastErr }
  | attempt, r + 1, elapsed, lastErr =>
    let a := withTimeout timeoutMs (work attempt)
    match a.2 with
    | .ok v =>
      { result := { success := true, data := some v, error := none,
                    executionTimeMs := elapsed + a.1, timestamp := startNow + elapsed + a.1 }
        attempts := [a]
        delays := []
        finalLastError := lastErr }
    | .error e =>
      if r > 0 then
        let w := retryDelayMs * (attempt + 1)
        let rest := retryAux timeoutMs retryDelayMs work startNow
          (attempt + 1) r (elapsed + a.1 + w) (some e)
        { rest with attempts := a :: rest.attempts, delays := w :: rest.delays }
      else
        { result := { success := false, data := none, error := some e,
                      executionTimeMs := elapsed + a.1, timestamp := startNow + elapsed + a.1 }
          attempts := [a]
          delays := []
          finalLastError := some e }

/-- `BaseAgent.executeWithRetry` (src/unnamed/part_000, lines 114-154),
entered with `context.lastError = ctxLastError` at wall-clock `now`. -/
def executeWithRetry (cfg : AgentConfig) (work : Nat → WorkResult α)
    (ctxLastError : Option String) (now : Nat) : RetryOutcome α :=
  retryAux cfg.timeoutMs cfg.retryDelayMs work now 0 cfg.maxRetries 0 ctxLastError

/-! ## Engine state, events, and lifecycle transitions -/

/-- Engine-emitted events (the `AgentEvents` catalog of
src/unnamed/part_002) with the payload fields the engine attaches. -/
inductive Ev (α : Type) where
  | started
  | stopped (metrics : AgentMetrics)
  | paused
  | resumed
  | executionStart (iteration : Nat)
  | executionComplete (data : Option α) (executionTimeMs : Nat)
  | executionFailed (error : Option String)
  | error (error : Option String)
  | metricsUpdated (metrics : AgentMetrics)
deriving DecidableEq, Repr

/-- One observable step of a lifecycle method: an extension-hook
invocation or a bus emission. -/
inductive Trace (α : Type) where
  | hookStart
  | hookStop
  | hookPause
  | hookResume
  | hookError (e : Option String)
  | emit (e : Ev α)
deriving DecidableEq, Repr

/-- The mutable fields of `BaseAgent` (src/unnamed/part_000, lines 10-46).
`intervalArmed` models `this.intervalId` (the armed `setInterval` period),
`startTime` models `this.startTime`, `contextStartedAt` models
`context.startedAt`. -/
structure EngineState (α : Type) where
  config : AgentConfig
  status : AgentStatus
  iteration : Nat
  lastError : Option String
  metrics : AgentMetrics
  startTime : Option Nat
  contextStartedAt : Nat
  intervalArmed : Option Nat
deriving DecidableEq, Repr

/-- The `BaseAgent` constructor (src/unnamed/part_000, lines 19-46)
at construction instant `now`. -/
def mkEngine (cfg : AgentConfig) (now : Nat) : EngineState α :=
  { config := cfg
    status := .idle
    iteration := 0
    lastError := none
    metrics := initialMetrics
    startTime := none
    contextStartedAt := now
    intervalArmed := none }

/-- JavaScript truthiness of the optional `intervalMs` argument of
`start`: `undefined` and `0` are falsy. -/
def jsTruthy : Option Nat → Bool
  | none => false
  | some n => n != 0

/-- `BaseAgent.tick` (src/unnamed/part_000, lines 104-112): guarded by
`status === 'running' && config.enabled`; an eligible tick increments the
iteration, runs the retry loop, updates metrics, and emits
`METRICS_UPDATED`. -/
def tick (work : Nat → WorkResult α) (now : Nat) (s : EngineState α) :
    EngineState α × List (Trace α) :=
  if s.status = .running ∧ s.config.enabled = true then
    let iteration := s.iteration + 1
    let o := executeWithRetry s.config work s.lastError now
    let status1 : AgentStatus := if o.result.success then s.status else .error
    let metrics1 := updateMetrics s.startTime (now + o.result.executionTimeMs)
      s.metrics o.result
    let loopTrace : List (Trace α) :=
      if o.result.success then
        [Trace.emit (Ev.executionComplete o.result.data o.result.executionTimeMs)]
      else
        [Trace.hookError o.finalLastError,
         Trace.emit (Ev.executionFailed o.finalLastError),
         Trace.emit (Ev.error o.finalLastError)]
    ({ s with status := status1, iteration := iteration,
              lastError := o.finalLastError, metrics := metrics1 },
     Trace.emit (Ev.executionStart iteration) :: loopTrace
       ++ [Trace.emit (Ev.metricsUpdated metrics1)])
  else (s, [])

/-- The state mutations `BaseAgent.start` performs before its immediate
`tick` (src/unnamed/part_000, lines 61-70): status, timestamps, and the
conditional `setInterval` arming (`if (intervalMs)` is a truthiness test,
so `0` does not arm). -/
def startPre (intervalMs : Option Nat) (now : Nat) (s : EngineState α) :
    EngineState α :=
  { s with status := .running
           startTime := some now
           contextStartedAt := now
           intervalArmed := if jsTruthy intervalMs then intervalMs else s.intervalArmed }

/-- `BaseAgent.start` (src/unnamed/part_000, lines 58-73). -/
def start (work : Nat → WorkResult α) (intervalMs : Option Nat) (now : Nat)
    (s : EngineState α) : EngineState α × List (Trace α) :=
  if s.status = .running then (s, [])
  else
    let s1 := startPre intervalMs now s
    let t := tick work now s1
    (t.1, Trace.hookStart :: Trace.emit Ev.started :: t.2)

/-- `BaseAgent.stop` (src/unnamed/part_000, lines 75-86). -/
def stop (s : EngineState α) : EngineState α × List (Trace α) :=
  if s.status = .stopped then (s, [])
  else
    let s1 := { s with intervalArmed := none, status := AgentStatus.stopped }
    (s1, [Trace.hookStop, Trace.emit (Ev.stopped s1.metrics)])

/-- `BaseAgent.pause` (src/unnamed/part_000, lines 88-94). -/
def pause (s : EngineState α) : EngineState α × List (Trace α) :=
  if s.status ≠ .running then (s, [])
  else
    ({ s with status := AgentStatus.paused }, [Trace.hookPause, Trace.emit Ev.paused])

/-- `BaseAgent.resume` (src/unnamed/part_000, lines 96-102). -/
def resume (s : EngineState α) : EngineState α × List (Trace α) :=
  if s.status ≠ .paused then (s, [])
  else
    ({ s with status := AgentStatus.running }, [Trace.hookResume, Trace.emit Ev.resumed])

/-! ## Sequences of lifecycle operations -/

/-- One public operation applied to an engine.  A `tick` action is one
firing of the periodic trigger (or the immediate cycle inside `start`);
its `work` argument is the behaviour of the unit-of-work per attempt
during that cycle, and `now` the wall clock at the firing. -/
inductive Action (α : Type) where
  | start (work : Nat → WorkResult α) (intervalMs : Option Nat) (now : Nat)
  | stop
  | pause
  | resume
  | tick (work : Nat → WorkResult α) (now : Nat)

/-- Apply one action to an engine state. -/
def step : Action α → EngineState α → EngineState α × List (Trace α)
  | .start work iv now, s => start work iv now s
  | .stop, s => stop s
  | .pause, s => pause s
  | .resume, s => resume s
  | .tick work now, s => tick work now s

/-- Run a sequence of actions from a state, keeping the final state. -/
def run (acts : List (Action α)) (s : EngineState α) : EngineState α :=
  acts.foldl (fun st a => (step a st).1) s

/-! ## Event bus (`EventBus`, src/unnamed/part_002)

Handlers are identified by their function identity, modelled as `Nat`
identifiers.  JavaScript `Map` and `Set` keep insertion order; `Set.add`
is a no-op on a present element and `Set.delete` removes it.  A handler's
behaviour is given externally as `beh : Nat → Except String Unit`
(`.error` = the handler throws/rejects). -/

/-- Insertion-ordered `Map.get`. -/
def mapGet (l : List (String × β)) (k : String) : Option β :=
  match l with
  | [] => none
  | (k', v) :: t => if k' = k then some v else mapGet t k

/-- Insertion-ordered `Map.set`: replace in place if present, else append. -/
def mapSet (l : List (String × β)) (k : String) (v : β) : List (String × β) :=
  match l with
  | [] => [(k, v)]
  | (k', v') :: t => if k' = k then (k', v) :: t else (k', v') :: mapSet t k v

/-- JavaScript `Set.add`. -/
def setAdd (s : List Nat) (h : Nat) : List Nat :=
  if h ∈ s then s else s ++ [h]

/-- JavaScript `Set.delete`: removes the element's (single) occurrence. -/
def setDelete (s : List Nat) (h : Nat) : List Nat :=
  match s with
  | [] => []
  | x :: t => if x = h then t else x :: setDelete t h

/-- The mutable fields of `EventBus` (src/unnamed/part_002, lines 3-6). -/
structure EventBus where
  handlers : List (String × List Nat)
  wildcardHandlers : List Nat
  subscriptionCounter : Nat
deriving DecidableEq, Repr

/-- `new EventBus()`. -/
def emptyBus : EventBus :=
  { handlers := [], wildcardHandlers := [], subscriptionCounter := 0 }

/-- The specific-type handler set for `t` (`this.handlers.get(t)` with a
missing entry read as empty). -/
def handlersFor (b : EventBus) (t : String) : List Nat :=
  (mapGet b.handlers t).getD []

/-- `EventBus.subscribe` (src/unnamed/part_002, lines 8-23), state part:
ensure the per-type set exists, then `Set.add` the handler.  The returned
subscription's `unsubscribe` closure is `unsubscribeSpecific · t h`. -/
def subscribe (b : EventBus) (t : String) (h : Nat) : EventBus :=
  { b with subscriptionCounter := b.subscriptionCounter + 1
           handlers := mapSet b.handlers t (setAdd (handlersFor b t) h) }

/-- The `unsubscribe` closure returned by `subscribe` (lines 19-21):
`this.handlers.get(eventType)?.delete(handler)`. -/
def unsubscribeSpecific (b : EventBus) (t : String) (h : Nat) : EventBus :=
  match mapGet b.handlers t with
  | none => b
  | some s => { b with handlers := mapSet b.handlers t (setDelete s h) }

/-- `EventBus.subscribeAll` (src/unnamed/part_002, lines 25-35), state part. -/
def subscribeAll (b : EventBus) (h : Nat) : EventBus :=
  { b with subscriptionCounter := b.subscriptionCounter + 1
           wildcardHandlers := setAdd b.wildcardHandlers h }

/-- The `unsubscribe` closure returned by `subscribeAll` (lines 31-33). -/
def unsubscribeAll (b : EventBus) (h : Nat) : EventBus :=
  { b with wildcardHandlers := setDelete b.wildcardHandlers h }

/-- The snapshot `[...handlers, ...wildcardHandlers]` taken by
`EventBus.emit` (line 39) for an event of type `t`: exactly the handlers
the emission invokes, in order. -/
def emitInvoked (b : EventBus) (t : String) : List Nat :=
  handlersFor b t ++ b.wildcardHandlers

/-- One handler call inside `emit` (lines 43-47): the call is wrapped in
`try/catch`, so a throwing handler is logged and absorbed. -/
def invokeHandler (beh : Nat → Except String Unit) (h : Nat) : Except String Unit :=
  match beh h with
  | .ok _ => .ok ()
  | .error _ => .ok ()

/-- Run the handler snapshot left to right; an uncaught handler error
would abort the traversal and surface to the caller, which is exactly
what `invokeHandler`'s catch prevents.  Returns the handlers invoked. -/
def runHandlers (beh : Nat → Except String Unit) : List Nat → Except String (List Nat)
  | [] => .ok []
  | h :: t =>
    match invokeHandler beh h with
    | .error e => .error e
    | .ok _ =>
      match runHandlers beh t with
      | .error e => .error e
      | .ok rest => .ok (h :: rest)

/-- `EventBus.emit` (src/unnamed/part_002, lines 37-50) for an event of
type `t`, with handler behaviours `beh`. -/
def emit (b : EventBus) (t : String) (beh : Nat → Except String Unit) :
    Except String (List Nat) :=
  runHandlers beh (emitInvoked b t)

/-! ## Fleet manager (`AgentManager`, src/manager.ts) -/

/-- `ManagedAgent` (src/manager.ts, lines 5-8), extended with the
unit-of-work behaviour `work` of the underlying concrete agent. -/
structure ManagedAgent (α : Type) where
  agent : EngineState α
  work : Nat → WorkResult α
  intervalMs : Option Nat

/-- The `agents` registry of `AgentManager` (src/manager.ts, line 11). -/
structure AgentManager (α : Type) where
  agents : List (String × ManagedAgent α)

/-- `new AgentManager()`. -/
def mkManager : AgentManager α := { agents := [] }

/-- `AgentManager.register` (src/manager.ts, lines 18-26): throws on a
duplicate id before any mutation, else inserts. -/
def register (m : AgentManager α) (a : ManagedAgent α) :
    Except String (AgentManager α) :=
  let id := a.agent.config.id
  if (mapGet m.agents id).isSome then
    .error ("Agent with id \"" ++ id ++ "\" already registered")
  else
    .ok { agents := mapSet m.agents id a }

/-- `AgentManager.getAgentCount` (src/manager.ts, lines 118-120). -/
def getAgentCount (m : AgentManager α) : Nat := m.agents.length

/-- The not-found error thrown by the lifecycle pass-through operations. -/
def notFoundMsg (id : String) : String := "Agent \"" ++ id ++ "\" not found"

/-- `AgentManager.startAgent` (src/manager.ts, lines 36-42). -/
def startAgent (m : AgentManager α) (id : String) (now : Nat) :
    Except String (AgentManager α) :=
  match mapGet m.agents id with
  | none => .error (notFoundMsg id)
  | some mg =>
    .ok { agents := mapSet m.agents id
            { mg with agent := (start mg.work mg.intervalMs now mg.agent).1 } }

/-- `AgentManager.stopAgent` (src/manager.ts, lines 44-50). -/
def stopAgent (m : AgentManager α) (id : String) :
    Except String (AgentManager α) :=
  match mapGet m.agents id with
  | none => .error (notFoundMsg id)
  | some mg =>
    .ok { agents := mapSet m.agents id { mg with agent := (stop mg.agent).1 } }

/-- `AgentManager.pauseAgent` (src/manager.ts, lines 52-58). -/
def pauseAgent (m : AgentManager α) (id : String) :
    Except String (AgentManager α) :=
  match mapGet m.agents id with
  | none => .error (notFoundMsg id)
  | some mg =>
    .ok { agents := mapSet m.agents id { mg with agent := (pause mg.agent).1 } }

/-- `AgentManager.resumeAgent` (src/manager.ts, lines 60-66). -/
def resumeAgent (m : AgentManager α) (id : String) :
    Except String (AgentManager α) :=
  match mapGet m.agents id with
  | none => .error (notFoundMsg id)
  | some mg =>
    .ok { agents := mapSet m.agents id { mg with agent := (resume mg.agent).1 } }

/-! ## Timed model of the periodic trigger

Modelled from `BaseAgent.start` line 69
(`this.intervalId = setInterval(() => this.tick(), intervalMs)`) and
`BaseAgent.tick`: the k-th timer firing occurs at wall clock
`(k+1) * intervalMs` and invokes `tick` immediately.  `tick` carries no
cycle-in-flight guard — its only gate is `status === 'running' &&
config.enabled` (line 105), a condition that remains true while a
previous cycle's retry loop is still awaiting — so an eligible firing
starts a cycle body at the firing instant which stays outstanding for
that cycle's duration `dur k`. -/

/-- Start instant of the cycle begun by the k-th timer firing. -/
def timerCycleStart (intervalMs k : Nat) : Nat := intervalMs * (k + 1)

/-- End instant of the cycle begun by the k-th timer firing. -/
def timerCycleEnd (intervalMs : Nat) (dur : Nat → Nat) (k : Nat) : Nat :=
  timerCycleStart intervalMs k + dur k

/-- Cycles j and k are simultaneously outstanding at some instant. -/
def cyclesOverlap (intervalMs : Nat) (dur : Nat → Nat) (j k : Nat) : Prop :=
  j ≠ k ∧ timerCycleStart intervalMs k < timerCycleEnd intervalMs dur j ∧
    timerCycleStart intervalMs j < timerCycleEnd intervalMs dur k

instance (intervalMs : Nat) (dur : Nat → Nat) (j k : Nat) :
    Decidable (cyclesOverlap intervalMs dur j k) := by
  unfold cyclesOverlap; infer_instance

/-! ## Helper lemmas -/

lemma tick_metrics_invariant (work : Nat → WorkResult α) (now : Nat)
    (s : EngineState α) (h : MetricsInvariant s.metrics) :
    MetricsInvariant ((tick work now s).1).metrics := by
  unfold tick
  split
  · exact updateMetrics_invariant _ _ _ _ h
  · exact h

lemma step_metrics_invariant (a : Action α) (s : EngineState α)
    (h : MetricsInvariant s.metrics) :
    MetricsInvariant ((step a s).1).metrics := by
  cases a with
  | start work iv now =>
    simp only [step, start]
    split
    · exact h
    · exact tick_metrics_invariant work now (startPre iv now s) h
  | stop => simp only [step, stop]; split <;> exact h
  | pause => simp only [step, pause]; split <;> exact h
  | resume => simp only [step, resume]; split <;> exact h
  | tick work now => exact tick_metrics_invariant work now s h

lemma run_metrics_invariant (acts : List (Action α)) (s : EngineState α)
    (h : MetricsInvariant s.metrics) : MetricsInvariant (run acts s).metrics := by
  induction acts generalizing s with
  | nil => exact h
  | cons a t ih => exact ih _ (step_metrics_invariant a s h)

/-- A sequence of metrics updates, each with its own `startTime`/`now`
arguments and result, folded over a starting metrics record. -/
def runUpdates (l : List (Option Nat × Nat × ExecutionResult α))
    (m : AgentMetrics) : AgentMetrics :=
  l.foldl (fun acc x => updateMetrics x.1 x.2.1 acc x.2.2) m

lemma runUpdates_total (l : List (Option Nat × Nat × ExecutionResult α))
    (m : AgentMetrics) :
    (runUpdates l m).totalExecutions = m.totalExecutions + l.length := by
  induction l generalizing m with
  | nil => simp [runUpdates]
  | cons x t ih =>
    simp only [runUpdates, List.foldl_cons] at *
    rw [ih]
    simp [updateMetrics_total]
    omega

lemma runUpdates_sumTime (l : List (Option Nat × Nat × ExecutionResult α))
    (m : AgentMetrics) :
    (runUpdates l m).averageExecutionTimeMs * ((runUpdates l m).totalExecutions : ℚ)
      = m.averageExecutionTimeMs * (m.totalExecutions : ℚ)
        + (l.map (fun x => ((x.2.2.executionTimeMs : Nat) : ℚ))).sum := by
  induction l generalizing m with
  | nil => simp [runUpdates]
  | cons x t ih =>
    simp only [runUpdates, List.foldl_cons, List.map_cons, List.sum_cons] at *
    rw [ih, updateMetrics_sumTime]
    ring

/-! ## Claims -/

/-- C1: for every agent configuration and after any sequence of lifecycle
operations and executed cycles, the engine's metrics satisfy
`totalExecutions = successfulExecutions + failedExecutions`. -/
theorem c1_metrics_count_invariant (α : Type) (cfg : AgentConfig) (now : Nat)
    (acts : List (Action α)) :
    MetricsInvariant (run acts (mkEngine cfg now)).metrics := by
  apply run_metrics_invariant
  simp [mkEngine, MetricsInvariant, initialMetrics]

/-- C1 witness: a concrete run of two cycles (one success, one terminal
failure) satisfies the count invariant. -/
theorem c1_metrics_count_invariant_witness :
    MetricsInvariant (run
      [Action.tick (fun _ => WorkResult.ok 5 ()) 0,
       Action.tick (fun _ => WorkResult.err 1 "boom") 100]
      (mkEngine { id := "a", name := "a", description := "",
                  priority := .normal, maxRetries := 2, retryDelayMs := 10,
                  timeoutMs := 50, enabled := true } 0)).metrics :=
  c1_metrics_count_invariant Unit _ 0 _

/-- C2: `updateMetrics` recomputes the average as
`(oldAverage * (n - 1) + newDuration) / n` with `n` the incremented total;
consequently after any sequence of completed cycles the average equals the
exact arithmetic mean of the recorded durations, independent of their
order. -/
theorem c2_running_mean (α : Type) :
    (∀ (st : Option Nat) (now : Nat) (m : AgentMetrics) (r : ExecutionResult α),
        (updateMetrics st now m r).averageExecutionTimeMs
          = (m.averageExecutionTimeMs * (((m.totalExecutions + 1 : Nat) : ℚ) - 1)
              + (r.executionTimeMs : ℚ)) / ((m.totalExecutions + 1 : Nat) : ℚ)
        ∧ (updateMetrics st now m r).totalExecutions = m.totalExecutions + 1)
    ∧ (∀ l : List (Option Nat × Nat × ExecutionResult α),
        (runUpdates l initialMetrics).averageExecutionTimeMs
          = (l.map (fun x => ((x.2.2.executionTimeMs : Nat) : ℚ))).sum / (l.length : ℚ))
    ∧ (∀ l l2 : List (Option Nat × Nat × ExecutionResult α), l.Perm l2 →
        (runUpdates l initialMetrics).averageExecutionTimeMs
          = (runUpdates l2 initialMetrics).averageExecutionTimeMs) := by
  have mean : ∀ l : List (Option Nat × Nat × ExecutionResult α),
      (runUpdates l initialMetrics).averageExecutionTimeMs
        = (l.map (fun x => ((x.2.2.executionTimeMs : Nat) : ℚ))).sum / (l.length : ℚ) := by
    intro l
    have ht := runUpdates_total l initialMetrics
    have hs := runUpdates_sumTime l initialMetrics
    simp only [initialMetrics, Nat.cast_zero, mul_zero, zero_mul, zero_add] at ht hs
    by_cases hl : l.length = 0
    · rcases List.length_eq_zero.mp hl
      simp [runUpdates, initialMetrics]
    · rw [ht] at hs
      rw [eq_div_iff (by exact_mod_cast hl)]
      exact hs
  refine ⟨fun st now m r => ⟨rfl, rfl⟩, mean, fun l l2 hp => ?_⟩
  rw [mean l, mean l2, hp.length_eq,
    (hp.map (fun x => ((x.2.2.executionTimeMs : Nat) : ℚ))).sum_eq]

/-- A successful execution result with duration `d`, for the C2 witness. -/
def c2res (d : Nat) : ExecutionResult Unit :=
  { success := true, data := some (), error := none, executionTimeMs := d,
    timestamp := 0 }

/-- Two cycles recorded in one order. -/
def c2SampleA : List (Option Nat × Nat × ExecutionResult Unit) :=
  [(none, 0, c2res 10), (none, 0, c2res 30)]

/-- The same two cycles in the opposite order. -/
def c2SampleB : List (Option Nat × Nat × ExecutionResult Unit) :=
  [(none, 0, c2res 30), (none, 0, c2res 10)]

/-- C2 witness: on a concrete two-cycle run the fold of `updateMetrics`
yields the arithmetic mean, and reordering the cycles leaves it unchanged. -/
theorem c2_running_mean_witness :
    (runUpdates c2SampleA initialMetrics).averageExecutionTimeMs
        = (c2SampleA.map (fun x => ((x.2.2.executionTimeMs : Nat) : ℚ))).sum
            / (c2SampleA.length : ℚ)
    ∧ (runUpdates c2SampleA initialMetrics).averageExecutionTimeMs
        = (runUpdates c2SampleB initialMetrics).averageExecutionTimeMs :=
  ⟨(c2_running_mean Unit).2.1 c2SampleA,
   (c2_running_mean Unit).2.2 c2SampleA c2SampleB (by decide)⟩

lemma retryAux_attempts_le (T D : Nat) (w : Nat → WorkResult α) (n : Nat) :
    ∀ (r a el : Nat) (lerr : Option String),
      (retryAux T D w n a r el lerr).attempts.length ≤ r := by
  intro r
  induction r with
  | zero => intro a el lerr; simp [retryAux]
  | succ r ih =>
    intro a el lerr
    simp only [retryAux]
    split
    · simp
    · split
      · simpa using ih _ _ _
      · simp

lemma retryAux_attempts_pos (T D : Nat) (w : Nat → WorkResult α) (n : Nat)
    (r a el : Nat) (lerr : Option String) (hr : 1 ≤ r) :
    1 ≤ (retryAux T D w n a r el lerr).attempts.length := by
  rcases r with _ | r
  · omega
  · simp only [retryAux]
    split
    · simp
    · split <;> simp

lemma retryAux_delays (T D : Nat) (w : Nat → WorkResult α) (n : Nat) :
    ∀ (r a el : Nat) (lerr : Option String),
      (retryAux T D w n a r el lerr).delays
        = (List.range ((retryAux T D w n a r el lerr).attempts.length - 1)).map
            (fun k => D * (a + k + 1)) := by
  intro r
  induction r with
  | zero => intro a el lerr; simp [retryAux]
  | succ r ih =>
    intro a el lerr
    simp only [retryAux]
    cases hout : (withTimeout T (w a)).2 with
    | ok v => simp
    | error e =>
      simp only [hout]
      by_cases hr : r > 0
      · simp only [hr, if_true, List.length_cons, Nat.add_sub_cancel]
        have hpos := retryAux_attempts_pos T D w n r (a + 1)
          (el + (withTimeout T (w a)).1 + D * (a + 1)) (some e) hr
        obtain ⟨m, hm⟩ := Nat.exists_eq_add_of_le hpos
        rw [hm, Nat.add_comm 1 m, List.range_succ_eq_map, List.map_cons, List.map_map]
        refine List.cons_eq_cons.mpr ⟨by simp, ?_⟩
        rw [ih]
        have hlen : (retryAux T D w n (a + 1) r
            (el + (withTimeout T (w a)).1 + D * (a + 1)) (some e)).attempts.length - 1
            = m := by omega
        rw [hlen]
        exact List.map_congr_left
          (fun k _ => by simp only [Function.comp_apply, Nat.succ_eq_add_one]; ring)
      · simp [hr]

/-- C3: the retry loop makes at most `maxRetries` attempts; delays occur
only between attempts (so the very first attempt never waits) and the k-th
wait is `retryDelayMs * (k + 1)` — linear backoff 1x, 2x, 3x, ...; an
attempt that reaches `timeoutMs` is reported as the synthetic failure
"Execution timeout"; and with `maxRetries = 1` a failing unit-of-work gets
exactly one attempt and no delay before terminal failure. -/
theorem c3_retry_loop (α : Type) (cfg : AgentConfig) (work : Nat → WorkResult α)
    (lerr : Option String) (now : Nat) :
    (executeWithRetry cfg work lerr now).attempts.length ≤ cfg.maxRetries
    ∧ (executeWithRetry cfg work lerr now).delays
        = (List.range ((executeWithRetry cfg work lerr now).attempts.length - 1)).map
            (fun k => cfg.retryDelayMs * (k + 1))
    ∧ (∀ (d : Nat) (v : α), cfg.timeoutMs ≤ d →
        withTimeout cfg.timeoutMs (WorkResult.ok d v)
          = (cfg.timeoutMs, Except.error "Execution timeout"))
    ∧ (∀ (d : Nat) (e : String), cfg.timeoutMs ≤ d →
        withTimeout cfg.timeoutMs (WorkResult.err (α := α) d e)
          = (cfg.timeoutMs, Except.error "Execution timeout"))
    ∧ withTimeout cfg.timeoutMs (WorkResult.pending (α := α))
        = (cfg.timeoutMs, Except.error "Execution timeout")
    ∧ (cfg.maxRetries = 1 →
        ∀ e, (withTimeout cfg.timeoutMs (work 0)).2 = Except.error e →
          (executeWithRetry cfg work lerr now).attempts.length = 1
          ∧ (executeWithRetry cfg work lerr now).delays = []
          ∧ (executeWithRetry cfg work lerr now).result.success = false) := by
  refine ⟨retryAux_attempts_le _ _ _ _ _ _ _ _, ?_, ?_, ?_, ?_, ?_⟩
  · rw [executeWithRetry, retryAux_delays]
    exact List.map_congr_left (fun k _ => by ring)
  · intro d v hd
    simp [withTimeout, Nat.not_lt.mpr hd]
  · intro d e hd
    simp [withTimeout, Nat.not_lt.mpr hd]
  · simp [withTimeout]
  · intro h1 e he
    simp [executeWithRetry, h1, retryAux, he]

/-- Config for the C3 witness: a single allowed attempt. -/
def c3cfg : AgentConfig :=
  { id := "c3", name := "c3", description := "", priority := .normal,
    maxRetries := 1, retryDelayMs := 7, timeoutMs := 50, enabled := true }

/-- Unit-of-work for the C3 witness: always rejects after 5 ms. -/
def c3work : Nat → WorkResult Unit := fun _ => .err 5 "boom"

/-- C3 witness: with `maxRetries = 1` and a failing unit-of-work there is
exactly one attempt, no delay, and terminal failure; and a unit-of-work
that would settle at 60 ms loses the race against a 50 ms timeout with the
synthetic "Execution timeout" failure. -/
theorem c3_retry_loop_witness :
    (executeWithRetry c3cfg c3work none 0).attempts.length = 1
    ∧ (executeWithRetry c3cfg c3work none 0).delays = []
    ∧ (executeWithRetry c3cfg c3work none 0).result.success = false
    ∧ withTimeout c3cfg.timeoutMs (WorkResult.ok 60 ())
        = (50, Except.error "Execution timeout") := by
  have h := c3_retry_loop Unit c3cfg c3work none 0
  have h1 := h.2.2.2.2.2 rfl "boom" rfl
  exact ⟨h1.1, h1.2.1, h1.2.2, h.2.2.1 60 () (by decide)⟩

lemma retryAux_allfail (T D : Nat) (w : Nat → WorkResult α) (n : Nat)
    (hf : ∀ i, ∃ e, (withTimeout T (w i)).2 = Except.error e) :
    ∀ (r a el : Nat) (lerr : Option String), 1 ≤ r →
      (retryAux T D w n a r el lerr).result.success = false
      ∧ (∃ e, (retryAux T D w n a r el lerr).finalLastError = some e)
      ∧ (retryAux T D w n a r el lerr).result.error
          = (retryAux T D w n a r el lerr).finalLastError
      ∧ (retryAux T D w n a r el lerr).result.executionTimeMs
          = el + ((retryAux T D w n a r el lerr).attempts.map Prod.fst).sum
              + (retryAux T D w n a r el lerr).delays.sum := by
  intro r
  induction r with
  | zero => intro a el lerr h; omega
  | succ r ih =>
    intro a el lerr _
    obtain ⟨e, he⟩ := hf a
    simp only [retryAux, he]
    by_cases hr : r > 0
    · simp only [hr, if_true]
      obtain ⟨h1, h2, h3, h4⟩ :=
        ih (a + 1) (el + (withTimeout T (w a)).1 + D * (a + 1)) (some e) hr
      refine ⟨h1, h2, h3, ?_⟩
      simp only [List.map_cons, List.sum_cons]
      omega
    · simp [hr]

/-- C4: a cycle in which every attempt fails sets status to `error`,
invokes the error hook with the last recorded error, emits
`EXECUTION_FAILED` and `ERROR` carrying that error, records the failure in
`lastError` and the metrics, and returns a failure result whose
`executionTimeMs` is the elapsed time from the cycle's start to the
terminal point (all attempt times plus all backoff waits).  `tick` and
`start` are total state transformers in this embedding, mirroring that the
source handles cycle failures entirely inside the retry loop and never
rethrows them to the caller of `start`. -/
theorem c4_terminal_failure (α : Type) (s : EngineState α)
    (work : Nat → WorkResult α) (now : Nat)
    (hrun : s.status = .running) (hen : s.config.enabled = true)
    (hmr : 1 ≤ s.config.maxRetries)
    (hf : ∀ i, ∃ e, (withTimeout s.config.timeoutMs (work i)).2 = Except.error e) :
    (executeWithRetry s.config work s.lastError now).result.success = false
    ∧ (∃ e, (executeWithRetry s.config work s.lastError now).finalLastError = some e)
    ∧ (executeWithRetry s.config work s.lastError now).result.error
        = (executeWithRetry s.config work s.lastError now).finalLastError
    ∧ (tick work now s).1.status = .error
    ∧ (tick work now s).1.lastError
        = (executeWithRetry s.config work s.lastError now).finalLastError
    ∧ (tick work now s).1.metrics.failedExecutions = s.metrics.failedExecutions + 1
    ∧ (tick work now s).1.metrics.totalExecutions = s.metrics.totalExecutions + 1
    ∧ (executeWithRetry s.config work s.lastError now).result.executionTimeMs
        = (((executeWithRetry s.config work s.lastError now).attempts.map Prod.fst).sum
            + (executeWithRetry s.config work s.lastError now).delays.sum)
    ∧ (tick work now s).2
        = [Trace.emit (Ev.executionStart (s.iteration + 1)),
           Trace.hookError (executeWithRetry s.config work s.lastError now).finalLastError,
           Trace.emit (Ev.executionFailed
             (executeWithRetry s.config work s.lastError now).finalLastError),
           Trace.emit (Ev.error
             (executeWithRetry s.config work s.lastError now).finalLastError),
           Trace.emit (Ev.metricsUpdated (tick work now s).1.metrics)] := by
  obtain ⟨h1, h2, h3, h4⟩ :=
    retryAux_allfail s.config.timeoutMs s.config.retryDelayMs work now hf
      s.config.maxRetries 0 0 s.lastError hmr
  have hx : (executeWithRetry s.config work s.lastError now).result.success = false := h1
  refine ⟨h1, h2, h3, ?_, ?_, ?_, ?_, by simpa using h4, ?_⟩
  · simp [tick, hrun, hen, hx]
  · simp [tick, hrun, hen]
  · simp [tick, hrun, hen, updateMetrics, hx]
  · simp [tick, hrun, hen, updateMetrics]
  · simp [tick, hrun, hen, hx]

/-- Engine state for the C4 witness: running, enabled, two allowed
attempts. -/
def c4state : EngineState Unit :=
  { config := { id := "c4", name := "c4", description := "",
                priority := .normal, maxRetries := 2, retryDelayMs := 10,
                timeoutMs := 50, enabled := true }
    status := .running
    iteration := 0
    lastError := none
    metrics := initialMetrics
    startTime := some 0
    contextStartedAt := 0
    intervalArmed := none }

/-- Unit-of-work for the C4 witness: always rejects after 3 ms. -/
def c4work : Nat → WorkResult Unit := fun _ => .err 3 "x"

/-- C4 witness: on a concrete always-failing agent, the cycle ends with
status `error`, a failure result, and a failed-execution metrics
increment. -/
theorem c4_terminal_failure_witness :
    (tick c4work 0 c4state).1.status = .error
    ∧ (executeWithRetry c4state.config c4work c4state.lastError 0).result.success = false
    ∧ (tick c4work 0 c4state).1.metrics.failedExecutions
        = c4state.metrics.failedExecutions + 1 := by
  have h := c4_terminal_failure Unit c4state c4work 0 rfl rfl (by decide)
    (fun i => ⟨"x", rfl⟩)
  exact ⟨h.2.2.2.1, h.1, h.2.2.2.2.2.1⟩

/-- Duration pattern for the C5 demonstration: every cycle takes 3 ms. -/
def c5dur : Nat → Nat := fun _ => 3

/-- Engine state for the C5 demonstration: running and enabled, so the
tick guard passes whenever a timer fires. -/
def c5state : EngineState Unit :=
  { config := { id := "c5", name := "c5", description := "",
                priority := .normal, maxRetries := 1, retryDelayMs := 0,
                timeoutMs := 50, enabled := true }
    status := .running
    iteration := 0
    lastError := none
    metrics := initialMetrics
    startTime := some 0
    contextStartedAt := 0
    intervalArmed := some 1 }

/-- Unit-of-work for the C5 demonstration: succeeds after 3 ms. -/
def c5work : Nat → WorkResult Unit := fun _ => .ok 3 ()

/-- C5 demonstration (the claim fails on the code): with `intervalMs = 1`
and cycles lasting 3 ms, the cycles started by the first two timer firings
are simultaneously outstanding — the timer model is read off
`setInterval(() => this.tick(), intervalMs)` in `start`, which re-fires
regardless of the previous cycle's pending retry loop — and `tick` on a
running, enabled engine unconditionally begins a new cycle (its only gate
is status/enabled; the engine state carries no cycle-in-flight guard), so
the firing at t = 2 ms starts a second cycle body while the first
(t = 1 ms to t = 4 ms) is still pending. -/
theorem c5_overlapping_cycles :
    cyclesOverlap 1 c5dur 0 1
    ∧ (tick c5work 2 c5state).1.iteration = c5state.iteration + 1
    ∧ (tick c5work 2 c5state).2.head?
        = some (Trace.emit (Ev.executionStart (c5state.iteration + 1))) := by
  refine ⟨by decide, rfl, by decide⟩

/-- C6: a tick while the status is not `running` or the config is
disabled is skipped silently — the state (metrics, iteration, everything)
is unchanged and nothing is emitted; in particular a `pause()` freezes the
iteration counter across elapsed ticks until `resume()` restores
`running`, after which the next tick executes a cycle. -/
theorem c6_skip_when_not_running (α : Type) (s : EngineState α)
    (work : Nat → WorkResult α) (now : Nat) :
    (s.status ≠ .running ∨ s.config.enabled = false →
      tick work now s = (s, []))
    ∧ (s.status = .running → s.config.enabled = true →
        (pause s).1.status = .paused
        ∧ (pause s).1.iteration = s.iteration
        ∧ tick work now (pause s).1 = ((pause s).1, [])
        ∧ (resume (pause s).1).1.status = .running
        ∧ (tick work now (resume (pause s).1).1).1.iteration = s.iteration + 1) := by
  constructor
  · intro h
    unfold tick
    split
    next hg => rcases h with h | h
               · exact absurd hg.1 h
               · rw [hg.2] at h; cases h
    next => rfl
  · intro hrun hen
    have hp : (pause s).1 = { s with status := AgentStatus.paused } := by
      simp [pause, hrun]
    have hr : (resume (pause s).1).1 = { s with status := AgentStatus.running } := by
      rw [hp]; simp [resume]
    refine ⟨by rw [hp], by rw [hp], ?_, by rw [hr], ?_⟩
    · rw [hp]
      unfold tick
      split
      next hg => simp at hg
      next => rfl
    · rw [hr]
      simp [tick, hen]

/-- Engine state for the C6 witness: running and enabled. -/
def c6state : EngineState Unit :=
  { config := { id := "c6", name := "c6", description := "",
                priority := .normal, maxRetries := 1, retryDelayMs := 0,
                timeoutMs := 50, enabled := true }
    status := .running
    iteration := 4
    lastError := none
    metrics := initialMetrics
    startTime := some 0
    contextStartedAt := 0
    intervalArmed := some 10 }

/-- Unit-of-work for the C6 witness. -/
def c6work : Nat → WorkResult Unit := fun _ => .ok 2 ()

/-- C6 witness: pausing a concrete running engine makes the next tick a
silent no-op (iteration still 4), and resuming lets the following tick run
a cycle (iteration 5). -/
theorem c6_skip_when_not_running_witness :
    tick c6work 100 (pause c6state).1 = ((pause c6state).1, [])
    ∧ (pause c6state).1.iteration = 4
    ∧ (tick c6work 100 (resume (pause c6state).1).1).1.iteration = 5 := by
  have h := (c6_skip_when_not_running Unit c6state c6work 100).2 rfl rfl
  exact ⟨h.2.2.1, h.2.1, h.2.2.2.2⟩

/-- Idle engine state for the C7 theorems, with no trigger armed. -/
def c7state : EngineState Unit :=
  { config := { id := "c7", name := "c7", description := "",
                priority := .normal, maxRetries := 1, retryDelayMs := 0,
                timeoutMs := 50, enabled := true }
    status := .idle
    iteration := 0
    lastError := none
    metrics := initialMetrics
    startTime := none
    contextStartedAt := 0
    intervalArmed := none }

/-- Unit-of-work for the C7 theorems. -/
def c7work : Nat → WorkResult Unit := fun _ => .ok 2 ()

/-- C7 counterexample: the claim says `start` arms the periodic trigger
whenever `intervalMs` is provided, but the source guards the
`setInterval` with a JavaScript truthiness test (`if (intervalMs)`), so a
provided interval of `0` does not arm the trigger. -/
theorem c7_counterexample :
    (start c7work (some 0) 5 c7state).1.intervalArmed = none := by
  decide

/-- C7 (amended): `start` is a no-op when already `running`; from any
other status it sets status to `running`, resets `startTime` and the
context's `startedAt`, invokes the onStart hook and emits `STARTED`, arms
the periodic trigger whenever a nonzero `intervalMs` is provided (a
provided `0` is falsy and leaves the trigger unarmed), and then
immediately performs one cycle, so the first cycle is not delayed by the
interval. -/
theorem c7_start (α : Type) (s : EngineState α) (work : Nat → WorkResult α)
    (iv : Option Nat) (now : Nat) :
    (s.status = .running → start work iv now s = (s, []))
    ∧ (s.status ≠ .running →
        (startPre iv now s).status = .running
        ∧ (startPre iv now s).startTime = some now
        ∧ (startPre iv now s).contextStartedAt = now
        ∧ (startPre iv now s).intervalArmed
            = (if jsTruthy iv then iv else s.intervalArmed)
        ∧ (start work iv now s).1 = (tick work now (startPre iv now s)).1
        ∧ (start work iv now s).2
            = Trace.hookStart :: Trace.emit Ev.started
                :: (tick work now (startPre iv now s)).2
        ∧ (s.config.enabled = true →
            (start work iv now s).1.iteration = s.iteration + 1)) := by
  constructor
  · intro h
    simp [start, h]
  · intro h
    refine ⟨rfl, rfl, rfl, rfl, by simp [start, h], by simp [start, h], ?_⟩
    intro hen
    simp [start, h, tick, startPre, hen]

/-- Running engine state for the C7 witness. -/
def c7run : EngineState Unit :=
  { c7state with status := .running }

/-- C7 witness: `start` on a concrete running engine is a no-op; on a
concrete idle engine it performs the first cycle immediately (iteration
becomes 1) and arms a provided nonzero interval. -/
theorem c7_start_witness :
    start c7work (some 10) 5 c7run = (c7run, [])
    ∧ (start c7work (some 10) 5 c7state).1.iteration = 1
    ∧ (startPre (some 10) 5 c7state).intervalArmed = some 10 := by
  have h1 := (c7_start Unit c7run c7work (some 10) 5).1 rfl
  have h2 := (c7_start Unit c7state c7work (some 10) 5).2 (by decide)
  exact ⟨h1, h2.2.2.2.2.2.2 rfl, (h2.2.2.2.1).trans (by decide)⟩

lemma mapGet_mapSet_self (l : List (String × β)) (k : String) (v : β) :
    mapGet (mapSet l k v) k = some v := by
  induction l with
  | nil => simp [mapGet, mapSet]
  | cons p t ih =>
    obtain ⟨k2, v2⟩ := p
    by_cases h : k2 = k
    · simp [mapGet, mapSet, h]
    · simp [mapGet, mapSet, h, ih]

lemma mapSet_length_absent (l : List (String × β)) (k : String) (v : β)
    (h : mapGet l k = none) : (mapSet l k v).length = l.length + 1 := by
  induction l with
  | nil => simp [mapSet]
  | cons p t ih =>
    obtain ⟨k2, v2⟩ := p
    by_cases hk : k2 = k
    · simp [mapGet, hk] at h
    · simp only [mapGet, hk, if_false] at h
      simp [mapSet, hk, ih h]

/-- C8: manager configuration errors fail fast without state mutation.
`register` on a present id returns the duplicate-id error and produces no
updated registry (the source throws before its `Map.set`), so the existing
registration and the fleet count are untouched; on a fresh id it inserts
and the count grows by one.  The four lifecycle pass-throughs return the
not-found error on an absent id without touching any engine, and on a
present id they return the registry in which exactly that engine has had
the corresponding lifecycle operation applied. -/
theorem c8_manager_config_errors (α : Type) (m : AgentManager α)
    (a : ManagedAgent α) (id : String) (now : Nat) :
    ((mapGet m.agents a.agent.config.id).isSome = true →
      register m a
        = .error ("Agent with id \"" ++ a.agent.config.id ++ "\" already registered"))
    ∧ (mapGet m.agents a.agent.config.id = none →
        register m a = .ok { agents := mapSet m.agents a.agent.config.id a }
        ∧ (mapSet m.agents a.agent.config.id a).length = m.agents.length + 1
        ∧ mapGet (mapSet m.agents a.agent.config.id a) a.agent.config.id = some a)
    ∧ (mapGet m.agents id = none →
        startAgent m id now = .error (notFoundMsg id)
        ∧ stopAgent m id = .error (notFoundMsg id)
        ∧ pauseAgent m id = .error (notFoundMsg id)
        ∧ resumeAgent m id = .error (notFoundMsg id))
    ∧ (∀ mg, mapGet m.agents id = some mg →
        startAgent m id now
          = .ok ⟨mapSet m.agents id
              { mg with agent := (start mg.work mg.intervalMs now mg.agent).1 }⟩
        ∧ stopAgent m id
          = .ok ⟨mapSet m.agents id { mg with agent := (stop mg.agent).1 }⟩
        ∧ pauseAgent m id
          = .ok ⟨mapSet m.agents id { mg with agent := (pause mg.agent).1 }⟩
        ∧ resumeAgent m id
          = .ok ⟨mapSet m.agents id
              { mg with agent := (resume mg.agent).1 }⟩) := by
  refine ⟨fun h => by simp [register, h], fun h => ?_, fun h => ?_, fun mg h => ?_⟩
  · exact ⟨by simp [register, h], mapSet_length_absent _ _ _ h, mapGet_mapSet_self _ _ _⟩
  · exact ⟨by simp [startAgent, h], by simp [stopAgent, h], by simp [pauseAgent, h],
      by simp [resumeAgent, h]⟩
  · exact ⟨by simp [startAgent, h], by simp [stopAgent, h], by simp [pauseAgent, h],
      by simp [resumeAgent, h]⟩

/-- Unit-of-work for the C8 witness. -/
def c8work : Nat → WorkResult Unit := fun _ => .ok 2 ()

/-- Configuration of the C8 witness agent. -/
def c8cfg : AgentConfig :=
  { id := "c8", name := "c8", description := "", priority := .normal,
    maxRetries := 1, retryDelayMs := 0, timeoutMs := 50, enabled := true }

/-- A registered agent for the C8 witness, id "c8". -/
def c8agent : ManagedAgent Unit :=
  { agent := mkEngine c8cfg 0
    work := c8work
    intervalMs := some 10 }

/-- A manager with exactly the agent "c8" registered. -/
def c8mgr : AgentManager Unit := { agents := [("c8", c8agent)] }

/-- C8 witness: on a concrete one-agent fleet, re-registering "c8" fails
with the duplicate-id error, `startAgent` of an absent id fails with the
not-found error, and `stopAgent` of "c8" delegates to that engine's
`stop`. -/
theorem c8_manager_config_errors_witness :
    register c8mgr c8agent
        = Except.error
            ("Agent with id \"" ++ c8agent.agent.config.id ++ "\" already registered")
    ∧ startAgent c8mgr "nope" 0 = Except.error (notFoundMsg "nope")
    ∧ stopAgent c8mgr "c8"
        = Except.ok ⟨mapSet c8mgr.agents "c8"
            { c8agent with agent := (stop c8agent.agent).1 }⟩ := by
  have h := c8_manager_config_errors Unit c8mgr c8agent "nope" 0
  have h2 := c8_manager_config_errors Unit c8mgr c8agent "c8" 0
  exact ⟨h.1 rfl, (h.2.2.1 rfl).1, (h2.2.2.2 c8agent rfl).2.1⟩

/-- Well-formedness of a bus state: every handler set is duplicate-free,
as JavaScript `Set` guarantees.  Every bus reachable through
`subscribe` / `subscribeAll` / the unsubscribe closures satisfies it. -/
def BusWF (b : EventBus) : Prop :=
  (∀ p ∈ b.handlers, (p.2 : List Nat).Nodup) ∧ b.wildcardHandlers.Nodup

instance (b : EventBus) : Decidable (BusWF b) := by
  unfold BusWF; infer_instance

lemma mem_mapSet : ∀ (l : List (String × β)) (k : String) (v : β)
    (p : String × β), p ∈ mapSet l k v → p ∈ l ∨ p = (k, v) := by
  intro l
  induction l with
  | nil => intro k v p hp; simp [mapSet] at hp; simp [hp]
  | cons q t ih =>
    intro k v p hp
    obtain ⟨k2, v2⟩ := q
    by_cases hk : k2 = k
    · simp only [mapSet, hk, if_true, List.mem_cons] at hp
      rcases hp with hp | hp
      · right; exact hp
      · left; exact List.mem_cons_of_mem _ hp
    · simp only [mapSet, hk, if_false, List.mem_cons] at hp
      rcases hp with hp | hp
      · left; simp [hp]
      · rcases ih k v p hp with hq | hq
        · left; exact List.mem_cons_of_mem _ hq
        · right; exact hq

lemma mapGet_mem : ∀ (l : List (String × β)) (k : String) (v : β),
    mapGet l k = some v → (k, v) ∈ l := by
  intro l
  induction l with
  | nil => intro k v h; simp [mapGet] at h
  | cons p t ih =>
    intro k v h
    obtain ⟨k2, v2⟩ := p
    by_cases hk : k2 = k
    · simp only [mapGet, hk, if_true, Option.some.injEq] at h
      simp [hk, h]
    · simp only [mapGet, hk, if_false] at h
      simp [ih k v h]

lemma runHandlers_ok (beh : Nat → Except String Unit) :
    ∀ l : List Nat, runHandlers beh l = .ok l := by
  intro l
  induction l with
  | nil => rfl
  | cons h t ih =>
    cases hb : beh h <;> simp [runHandlers, invokeHandler, hb, ih]

lemma setAdd_mem_self (l : List Nat) (h : Nat) : h ∈ setAdd l h := by
  unfold setAdd
  split
  next hm => exact hm
  next => simp

lemma setAdd_of_mem (l : List Nat) (h : Nat) (hm : h ∈ l) : setAdd l h = l := by
  simp [setAdd, hm]

lemma setAdd_count (l : List Nat) (h : Nat) (hnd : l.Nodup) :
    (setAdd l h).count h = 1 := by
  unfold setAdd
  split
  next hm => exact List.count_eq_one_of_mem hnd hm
  next hm => rw [List.count_append]; simp [List.count_eq_zero_of_not_mem hm]

lemma setAdd_nodup (l : List Nat) (h : Nat) (hnd : l.Nodup) :
    (setAdd l h).Nodup := by
  unfold setAdd
  split
  next => exact hnd
  next hm => simp [List.nodup_append, hnd, hm]

lemma setDelete_count (l : List Nat) (h : Nat) (hnd : l.Nodup) :
    (setDelete l h).count h = 0 := by
  induction l with
  | nil => rfl
  | cons x t ih =>
    rw [List.nodup_cons] at hnd
    by_cases hx : x = h
    · simp only [setDelete, hx, if_true]
      subst hx
      exact List.count_eq_zero_of_not_mem hnd.1
    · have hne : ¬h = x := fun hh => hx hh.symm
      simp [setDelete, hx, List.count_cons, hne, ih hnd.2]

lemma handlersFor_nodup (b : EventBus) (wf : BusWF b) (t : String) :
    (handlersFor b t).Nodup := by
  unfold handlersFor
  cases hx : mapGet b.handlers t with
  | none => simp
  | some s => simpa using wf.1 _ (mapGet_mem _ _ _ hx)

lemma handlersFor_subscribe (b : EventBus) (t : String) (h : Nat) :
    handlersFor (subscribe b t h) t = setAdd (handlersFor b t) h := by
  simp [handlersFor, subscribe, mapGet_mapSet_self]

lemma unsubscribeSpecific_wildcard (b : EventBus) (t : String) (h : Nat) :
    (unsubscribeSpecific b t h).wildcardHandlers = b.wildcardHandlers := by
  unfold unsubscribeSpecific
  split <;> rfl

lemma handlersFor_unsubscribe (b : EventBus) (t : String) (h : Nat)
    (wf : BusWF b) : (handlersFor (unsubscribeSpecific b t h) t).count h = 0 := by
  unfold unsubscribeSpecific
  cases hx : mapGet b.handlers t with
  | none =>
    simp [handlersFor, hx]
  | some s =>
    have hs : s.Nodup := by simpa using wf.1 _ (mapGet_mem _ _ _ hx)
    simp [handlersFor, mapGet_mapSet_self, setDelete_count s h hs]

/-- C9: an emission invokes every matching specific-type handler and
every wildcard handler (the snapshot `emitInvoked`); whatever the
handlers' failure behaviour, `emit` completes normally with every
snapshot member invoked, because each call is wrapped in its own
try/catch — a failing handler never suppresses another handler nor
surfaces to the caller of `emit`; and a handler unsubscribed from a
well-formed bus no longer appears in any later emission's snapshot (the
current pass uses the already-taken snapshot so it cannot crash). -/
theorem c9_emit_isolation (b : EventBus) (t : String) (h : Nat)
    (beh : Nat → Except String Unit) :
    (∀ x ∈ handlersFor b t, x ∈ emitInvoked b t)
    ∧ (∀ x ∈ b.wildcardHandlers, x ∈ emitInvoked b t)
    ∧ emit b t beh = .ok (emitInvoked b t)
    ∧ (BusWF b → h ∉ b.wildcardHandlers →
        h ∉ emitInvoked (unsubscribeSpecific b t h) t) := by
  refine ⟨fun x hx => List.mem_append_left _ hx,
    fun x hx => List.mem_append_right _ hx,
    runHandlers_ok beh _, fun wf hw => ?_⟩
  unfold emitInvoked
  rw [List.mem_append, unsubscribeSpecific_wildcard]
  rintro (hmem | hmem)
  · exact (List.count_eq_zero.mp (handlersFor_unsubscribe b t h wf)) hmem
  · exact hw hmem

/-- A concrete bus for the C9 witness: handlers 1 and 2 subscribed to
"agent:error", handler 3 wildcard-subscribed. -/
def c9bus : EventBus :=
  subscribeAll (subscribe (subscribe emptyBus "agent:error" 1) "agent:error" 2) 3

/-- A handler behaviour for the C9 witness under which handler 1 throws. -/
def c9beh : Nat → Except String Unit :=
  fun h => if h = 1 then .error "handler boom" else .ok ()

/-- C9 witness: on the concrete bus, an emission with a throwing handler
still completes normally having invoked all three handlers, and handler 1,
once unsubscribed, is absent from the next emission's snapshot. -/
theorem c9_emit_isolation_witness :
    emit c9bus "agent:error" c9beh = .ok (emitInvoked c9bus "agent:error")
    ∧ emitInvoked c9bus "agent:error" = [1, 2, 3]
    ∧ 1 ∉ emitInvoked (unsubscribeSpecific c9bus "agent:error" 1) "agent:error" := by
  have h := c9_emit_isolation c9bus "agent:error" 1 c9beh
  exact ⟨h.2.2.1, by decide, h.2.2.2 (by decide) (by decide)⟩

/-- C10: bus registrations are keyed by handler function identity per
event type: subscribing the same handler twice for the same type leaves
exactly one registration, so a matching emission invokes it once; and the
unsubscribe closure (both returned subscriptions close over the same
`(eventType, handler)` pair and perform the same deletion) removes the
handler entirely, after which a matching emission invokes it zero times. -/
theorem c10_subscribe_identity (b : EventBus) (t : String) (h : Nat)
    (wf : BusWF b) (hw : h ∉ b.wildcardHandlers) :
    (handlersFor (subscribe (subscribe b t h) t h) t).count h = 1
    ∧ (emitInvoked (subscribe (subscribe b t h) t h) t).count h = 1
    ∧ (handlersFor
        (unsubscribeSpecific (subscribe (subscribe b t h) t h) t h) t).count h = 0
    ∧ (emitInvoked
        (unsubscribeSpecific (subscribe (subscribe b t h) t h) t h) t).count h = 0 := by
  have hnd : (handlersFor b t).Nodup := handlersFor_nodup b wf t
  have h2 : handlersFor (subscribe (subscribe b t h) t h) t
      = setAdd (handlersFor b t) h := by
    rw [handlersFor_subscribe, handlersFor_subscribe,
      setAdd_of_mem _ _ (setAdd_mem_self _ _)]
  have hcount : (handlersFor (subscribe (subscribe b t h) t h) t).count h = 1 := by
    rw [h2]; exact setAdd_count _ _ hnd
  have hwf2 : BusWF (subscribe (subscribe b t h) t h) := by
    constructor
    · intro p hp
      simp only [subscribe] at hp
      rcases mem_mapSet _ _ _ _ hp with hp1 | hp1
      · rcases mem_mapSet _ _ _ _ hp1 with hp2 | hp2
        · exact wf.1 p hp2
        · rw [hp2]; exact setAdd_nodup _ h hnd
      · rw [hp1]
        have : (handlersFor (subscribe b t h) t).Nodup := by
          rw [handlersFor_subscribe]; exact setAdd_nodup _ h hnd
        exact setAdd_nodup _ h this
    · exact wf.2
  have hwild : (subscribe (subscribe b t h) t h).wildcardHandlers
      = b.wildcardHandlers := rfl
  have hwc : (b.wildcardHandlers).count h = 0 := List.count_eq_zero_of_not_mem hw
  refine ⟨hcount, ?_, ?_, ?_⟩
  · rw [emitInvoked, List.count_append, hcount, hwild, hwc]
  · exact handlersFor_unsubscribe _ t h hwf2
  · rw [emitInvoked, List.count_append, handlersFor_unsubscribe _ t h hwf2,
      unsubscribeSpecific_wildcard, hwild, hwc]

/-- C10 witness: concretely double-subscribing handler 7 to "agent:error"
on the empty bus leaves one registration invoked once per emission, and
unsubscribing removes it entirely. -/
theorem c10_subscribe_identity_witness :
    (handlersFor (subscribe (subscribe emptyBus "agent:error" 7) "agent:error" 7)
        "agent:error").count 7 = 1
    ∧ (emitInvoked (subscribe (subscribe emptyBus "agent:error" 7) "agent:error" 7)
        "agent:error").count 7 = 1
    ∧ (emitInvoked (unsubscribeSpecific
        (subscribe (subscribe emptyBus "agent:error" 7) "agent:error" 7)
        "agent:error" 7) "agent:error").count 7 = 0 := by
  have h := c10_subscribe_identity emptyBus "agent:error" 7 (by decide) (by decide)
  exact ⟨h.1, h.2.1, h.2.2.2⟩

end AgentFramework
